import Mathlib

/-!
Verification development for the rsyslog_exporter stats engine
(rsyslog_stats.go).  The Go functions are shallowly embedded as Lean
definitions: Go maps obtained from json.Unmarshal become association
lists, float64 values become rationals, runtime panics of unchecked
type assertions and slice expressions become an explicit GoPanic
result, and the log output of failToParse is surfaced as the list of
reported errors returned by Parse.
-/

/-- One decoded JSON value exactly as Go json.Unmarshal produces it into
an interface value: numbers become float64 (modelled as Rat), strings,
booleans, null (nil interface), arrays and objects. -/
inductive GoValue where
  | null : GoValue
  | bool (b : Bool) : GoValue
  | num (q : Rat) : GoValue
  | str (s : String) : GoValue
  | arr (xs : List GoValue) : GoValue
  | obj (fields : List (String × GoValue)) : GoValue

/-- A decoded record: the Go value of type map[string]interface computed by
json.Unmarshal for one stat line.  Association list with the keys unique
(json.Unmarshal keeps the last duplicate, so the resulting map has unique
keys). -/
abbrev GoObj := List (String × GoValue)

/-- Go map indexing data[k]: nil interface (none) when the key is absent. -/
def lookupField : GoObj → String → Option GoValue
  | [], _ => none
  | (k, v) :: rest, key => if k = key then some v else lookupField rest key

/-- Runtime panics the Go code can raise while parsing a record:
a failed single-value interface type assertion, or a slice expression
with negative bound (str[:-1] inside splitRight). -/
inductive GoPanic where
  | typeAssertion : GoPanic
  | sliceBounds : GoPanic
deriving DecidableEq, Repr

/-- Errors produced on the parsing path.  The Go code builds them with
fmt.Errorf; only their identity matters to the embedding:
decodeFailure is the cannot-parse-JSON wrapper around the json.Unmarshal
error, missingField f is the field-is-required-but-not-found error for
field f built in identify, convertType t is the cannot-convert error of
getValue for a value of dynamic type t, and numSyntax s is the
strconv.ParseFloat failure on the string s. -/
inductive GoErr where
  | decodeFailure : GoErr
  | missingField (f : String) : GoErr
  | convertType (t : String) : GoErr
  | numSyntax (s : String) : GoErr
deriving DecidableEq, Repr

/-- The Go %T name of the dynamic type of an interface value, for the
values getValue can receive (nil interface for an absent key). -/
def goTypeName : Option GoValue → String
  | none => "<nil>"
  | some .null => "<nil>"
  | some (.bool _) => "bool"
  | some (.num _) => "float64"
  | some (.str _) => "string"
  | some (.arr _) => "[]interface \x7b\x7d"
  | some (.obj _) => "map[string]interface \x7b\x7d"

/-- Model of the external strconv.ParseFloat collaborator, restricted to
plain decimal literals: optional sign, decimal digits, optional dot and
fractional digits, at least one digit overall.  Go additionally accepts
exponents, hex floats and Inf/NaN spellings, which no claim exercises. -/
def parseFloatCore (cs : List Char) : Option Rat :=
  let intPart := cs.takeWhile Char.isDigit
  let rest := cs.dropWhile Char.isDigit
  match rest with
  | [] =>
      if intPart.isEmpty then none
      else some ((intPart.foldl (fun a c => a * 10 + (c.toNat - 48)) 0 : Nat) : Rat)
  | '.' :: frac =>
      if frac.all Char.isDigit && !(intPart.isEmpty && frac.isEmpty) then
        some (((intPart.foldl (fun a c => a * 10 + (c.toNat - 48)) 0 : Nat) : Rat) +
          ((frac.foldl (fun a c => a * 10 + (c.toNat - 48)) 0 : Nat) : Rat) /
            ((10 : Rat) ^ frac.length))
      else none
  | _ => none

/-- Model of the external strconv.ParseFloat collaborator (see
parseFloatCore); none models a non-nil error. -/
def parseFloat (s : String) : Option Rat :=
  match s.data with
  | [] => none
  | '-' :: cs => (parseFloatCore cs).map Neg.neg
  | '+' :: cs => parseFloatCore cs
  | cs => parseFloatCore cs

/-- getValue from rsyslog_stats.go: a float64 passes through, a string is
parsed with strconv.ParseFloat, and every other dynamic type (bool,
object, array, null, nil interface) fails with the cannot-convert error.
The argument is the interface value data[field], none modelling the nil
interface of an absent key. -/
def getValue : Option GoValue → Except GoErr Rat
  | some (.num q) => .ok q
  | some (.str s) =>
      match parseFloat s with
      | some q => .ok q
      | none => .error (.numSyntax s)
  | v => .error (.convertType (goTypeName v))

/-- Go int(f) conversion of a float64: truncation toward zero. -/
def truncFloat (q : Rat) : Int := Int.tdiv q.num (Int.ofNat q.den)

/-- RsyslogStatsLabels from rsyslog_stats.go: the one label attached to an
observation, as the pair of the label axis (Name) and its value (Value). -/
structure RsyslogStatsLabels where
  name : String
  value : String
deriving DecidableEq, Repr

/-- RsyslogStatsLabeledValues: Go map from labels to metric value,
as an association list (first match wins on lookup, update-in-place on
insert, exactly the Go map semantics for unique keys). -/
abbrev RsyslogStatsLabeledValues := List (RsyslogStatsLabels × Int)

/-- RsyslogStatsMetrics: Go map from metric name to its labeled values. -/
abbrev RsyslogStatsMetrics := List (String × RsyslogStatsLabeledValues)

/-- Go map assignment lv[l] = v: update the entry for l in place, or
append a new one. -/
def insertLV : RsyslogStatsLabeledValues → RsyslogStatsLabels → Int →
    RsyslogStatsLabeledValues
  | [], l, v => [(l, v)]
  | (l', v') :: rest, l, v =>
      if l' = l then (l', v) :: rest else (l', v') :: insertLV rest l v

/-- The Go map assignment m[name][l] = v preceded by the
create-bucket-if-absent step of appendMetric and add. -/
def insertM : RsyslogStatsMetrics → String → RsyslogStatsLabels → Int →
    RsyslogStatsMetrics
  | [], n, l, v => [(n, insertLV [] l v)]
  | (n', lv) :: rest, n, l, v =>
      if n' = n then (n', insertLV lv l v) :: rest
      else (n', lv) :: insertM rest n l v

/-- Go map read lv[l]. -/
def lookupLV : RsyslogStatsLabeledValues → RsyslogStatsLabels → Option Int
  | [], _ => none
  | (l', v) :: rest, l => if l' = l then some v else lookupLV rest l

/-- Go double map read m[name][l]. -/
def lookupM (m : RsyslogStatsMetrics) (n : String) (l : RsyslogStatsLabels) :
    Option Int :=
  match m with
  | [] => none
  | (n', lv) :: rest => if n' = n then lookupLV lv l else lookupM rest n l

/-- sanitiseMetricName step 0, per character: the ASCII case of the
external strings.ToLower collaborator (every character the later
replacement step keeps is ASCII, so this is the only case that can
influence the result kept by the pipeline). -/
def toLowerChar (c : Char) : Char :=
  if 65 ≤ c.toNat ∧ c.toNat ≤ 90 then Char.ofNat (c.toNat + 32) else c

/-- The character class of the regexp [^_a-zA-Z0-9] complement:
underscore 95, a-z 97..122, A-Z 65..90, digits 48..57. -/
def isOkChar (c : Char) : Bool :=
  c.toNat = 95 || (97 ≤ c.toNat && c.toNat ≤ 122) ||
    (65 ≤ c.toNat && c.toNat ≤ 90) || (48 ≤ c.toNat && c.toNat ≤ 57)

/-- sanitiseMetricName step 1: reNonAlNum.ReplaceAllLiteralString, which
replaces every character outside [_a-zA-Z0-9] by an underscore. -/
def replaceBad (c : Char) : Char := if isOkChar c then c else '_'

/-- sanitiseMetricName step 2: reUnderscores.ReplaceAllLiteralString,
which squashes every run of underscores down to a single one (the first
underscore of each adjacent pair is dropped). -/
def squash : List Char → List Char
  | [] => []
  | [c] => [c]
  | a :: b :: rest =>
      if a = '_' ∧ b = '_' then squash (b :: rest)
      else a :: squash (b :: rest)

/-- sanitiseMetricName step 3: strings.TrimRight with cutset underscore,
removing every trailing underscore. -/
def stripTrailing (cs : List Char) : List Char :=
  ((cs.reverse.dropWhile (fun c => c = '_')).reverse)

/-- sanitiseMetricName from rsyslog_stats.go: lower-case, replace every
non-alphanumeric character by underscore, squash underscore runs, strip
trailing underscores. -/
def sanitiseMetricName (s : String) : String :=
  ⟨stripTrailing (squash ((s.data.map toLowerChar).map replaceBad))⟩

/-- splitRight from rsyslog_stats.go: split at the last dot.  When the
string has no dot, strings.LastIndexAny returns -1 and the Go slice
expression str[:-1] raises a slice-bounds panic. -/
def splitRightList : List Char → Option (List Char × List Char)
  | [] => none
  | c :: cs =>
      match splitRightList cs with
      | some (l, r) => some (c :: l, r)
      | none => if c = '.' then some ([], cs) else none

/-- splitRight with its possible panic made explicit. -/
def splitRight (s : String) : Except GoPanic (String × String) :=
  match splitRightList s.data with
  | some (l, r) => .ok (⟨l⟩, ⟨r⟩)
  | none => .error .sliceBounds

/-- RsyslogStats from rsyslog_stats.go (the mutex is a concurrency
artifact with no sequential content; parsersByType is realised by the
dispatch function of the same name below).  metricPfx is the Go field
MetricPrefix, renamed. -/
structure RsyslogStats where
  metrics : RsyslogStatsMetrics
  parserFailures : Nat
  parsedMessages : Nat
  parseTimestamp : Int
  metricPfx : String
  nameField : String
  originField : String
deriving DecidableEq, Repr

/-- NewRsyslogStats: zero counters, empty table (the timestamp starts at
the Go zero value 0). -/
def NewRsyslogStats : RsyslogStats :=
  { metrics := []
    parserFailures := 0
    parsedMessages := 0
    parseTimestamp := 0
    metricPfx := "rsyslog"
    nameField := "name"
    originField := "origin" }

/-- The body of appendMetric once the value.(float64) assertion has
succeeded (also the exact behavior of appendMetric at every call site
that passes a value of static type float64). -/
def appendMetricNum (m : RsyslogStatsMetrics) (metricName : String)
    (labels : RsyslogStatsLabels) (q : Rat) : RsyslogStatsMetrics :=
  insertM m (sanitiseMetricName metricName) labels (truncFloat q)

/-- appendMetric from rsyslog_stats.go: the unchecked value.(float64)
assertion panics on every non-number value. -/
def appendMetric (m : RsyslogStatsMetrics) (metricName : String)
    (labels : RsyslogStatsLabels) (value : GoValue) :
    Except GoPanic RsyslogStatsMetrics :=
  match value with
  | .num q => .ok (appendMetricNum m metricName labels q)
  | _ => .error .typeAssertion

/-- rsyslogStatType from rsyslog_stats.go. -/
inductive rsyslogStatType where
  | rtDefault : rsyslogStatType
  | rtDynstatGlobal : rsyslogStatType
  | rtDynstatBucket : rsyslogStatType
  | rtNamed : rsyslogStatType
  | rtSender : rsyslogStatType
deriving DecidableEq, Repr

/-- parseDynstatsGlobal: iterates the entries of data["values"] asserted
to be an object (panic when absent or of another type), splits every key
at its last dot (panic when there is none) and appends one metric per
entry (panic when the entry value is not a number).  Returns nil
per-field errors. -/
def parseDynstatsGlobal (rs : RsyslogStats) (name origin : String)
    (data : GoObj) : Except GoPanic (RsyslogStatsMetrics × List GoErr) :=
  let metricName := rs.metricPfx ++ "_" ++ origin ++ "_" ++ name
  match lookupField data "values" with
  | some (.obj vals) =>
      (vals.foldlM (fun (m : RsyslogStatsMetrics) (fv : String × GoValue) => do
        let (cname, counter) ← splitRight fv.1
        appendMetric m (metricName ++ "_" ++ counter)
          ⟨"counter", cname⟩ fv.2) []).map (fun m => (m, []))
  | _ => .error .typeAssertion

/-- parseDynstatsBucket: like parseDynstatsGlobal but the keys are used
verbatim as bucket label values (no split). -/
def parseDynstatsBucket (rs : RsyslogStats) (name origin : String)
    (data : GoObj) : Except GoPanic (RsyslogStatsMetrics × List GoErr) :=
  let metricName := rs.metricPfx ++ "_" ++ origin ++ "_" ++ name
  match lookupField data "values" with
  | some (.obj vals) =>
      (vals.foldlM (fun (m : RsyslogStatsMetrics) (fv : String × GoValue) =>
        appendMetric m metricName ⟨"bucket", fv.1⟩ fv.2) []).map
        (fun m => (m, []))
  | _ => .error .typeAssertion

/-- parseSenderStats: coerces data["messages"]; on coercion failure the
whole record fails with nil metrics and that one error.  On success the
unchecked data["sender"].(string) assertion panics when the sender field
is absent or not a string. -/
def parseSenderStats (rs : RsyslogStats) (name origin : String)
    (data : GoObj) : Except GoPanic (RsyslogStatsMetrics × List GoErr) :=
  match getValue (lookupField data "messages") with
  | .error e => .ok ([], [e])
  | .ok v =>
      match lookupField data "sender" with
      | some (.str sender) =>
          .ok (appendMetricNum [] (rs.metricPfx ++ "_" ++ "sender_stat_messages")
            ⟨"sender", sender⟩ v, [])
      | _ => .error .typeAssertion

/-- The skip test of the parseNamedStats and parseDefault loops: the
configured name and origin keys are not counters. -/
def skipsField (rs : RsyslogStats) (k : String) : Bool :=
  k == rs.nameField || k == rs.originField

/-- One iteration of the parseNamedStats loop: skip the name and origin
keys, record a per-field error on coercion failure, append the metric
otherwise. -/
def parseNamedStep (rs : RsyslogStats) (name origin : String)
    (acc : RsyslogStatsMetrics × List GoErr) (kv : String × GoValue) :
    RsyslogStatsMetrics × List GoErr :=
  if skipsField rs kv.1 then acc
  else
    match getValue (some kv.2) with
    | .error e => (acc.1, acc.2 ++ [e])
    | .ok v =>
        (appendMetricNum acc.1 (rs.metricPfx ++ "_" ++ origin ++ "_" ++ kv.1)
          ⟨"name", name⟩ v, acc.2)

/-- parseNamedStats: every top-level field except the name and origin
keys is coerced independently; failures are collected per field and do
not abort the record.  The appendMetric call receives a value of static
type float64, so its assertion cannot panic here. -/
def parseNamedStats (rs : RsyslogStats) (name origin : String)
    (data : GoObj) : RsyslogStatsMetrics × List GoErr :=
  data.foldl (parseNamedStep rs name origin) ([], [])

/-- parseDefault: like parseNamedStats with an empty label pair. -/
def parseDefault (rs : RsyslogStats) (name origin : String)
    (data : GoObj) : RsyslogStatsMetrics × List GoErr :=
  data.foldl (fun acc kv =>
    if kv.1 = rs.nameField ∨ kv.1 = rs.originField then acc
    else
      match getValue (some kv.2) with
      | .error e => (acc.1, acc.2 ++ [e])
      | .ok v =>
          (appendMetricNum acc.1 (rs.metricPfx ++ "_" ++ origin ++ "_" ++ name ++ "_" ++ kv.1)
            ⟨"", ""⟩ v, acc.2)) ([], [])

/-- The four named results of identify. -/
structure IdentifyResult where
  name : String
  origin : String
  st : rsyslogStatType
  err : Option GoErr
deriving DecidableEq, Repr

/-- The Go comma-ok assertion s, found = v.(string): the string and true
on a string value, the zero value and false on everything else
(including the nil interface of an absent key). -/
def stringAssert : Option GoValue → String × Bool
  | some (.str s) => (s, true)
  | _ => ("", false)

/-- identify from rsyslog_stats.go.  The comma-ok string assertions give
the empty string and found=false both when the key is absent and when
its value is not a string; a missing-origin failure overwrites a
missing-name failure in the shared error variable. -/
def identify (rs : RsyslogStats) (data : GoObj) : IdentifyResult :=
  let np := stringAssert (lookupField data rs.nameField)
  let name := np.1
  let e0 : Option GoErr :=
    if np.2 then none else some (.missingField rs.nameField)
  let op := stringAssert (lookupField data rs.originField)
  let oe : String × Option GoErr :=
    if op.2 then (op.1, e0)
    else
      match name with
      | "omkafka" => ("omkafka", e0)
      | "_sender_stat" => ("impstats", e0)
      | _ => ("", some (.missingField rs.originField))
  let origin := oe.1
  let st : rsyslogStatType :=
    if origin = "dynstats" then .rtDynstatGlobal
    else if origin = "dynstats.bucket" then .rtDynstatBucket
    else if name = "_sender_stat" then .rtSender
    else .rtNamed
  ⟨name, origin, st, oe.2⟩

/-- The parsersByType dispatch table of NewRsyslogStats, as the function
it denotes.  The two always-total parsers are wrapped in ok. -/
def parsersByType (rs : RsyslogStats) (st : rsyslogStatType)
    (name origin : String) (data : GoObj) :
    Except GoPanic (RsyslogStatsMetrics × List GoErr) :=
  match st with
  | .rtDynstatGlobal => parseDynstatsGlobal rs name origin data
  | .rtDynstatBucket => parseDynstatsBucket rs name origin data
  | .rtSender => parseSenderStats rs name origin data
  | .rtNamed => .ok (parseNamedStats rs name origin data)
  | .rtDefault => .ok (parseDefault rs name origin data)

/-- The add method of RsyslogStats restricted to the metric table it
mutates: every labeled value of the batch is written into the table with
m[metric][labels] = value, creating buckets as needed. -/
def mergeMetrics (t batch : RsyslogStatsMetrics) : RsyslogStatsMetrics :=
  batch.foldl (fun t p => p.2.foldl (fun t q => insertM t p.1 q.1 q.2) t) t

/-- failToParse restricted to the state it mutates: one failure counter
increment.  Its log line is surfaced by the reported-error list Parse
returns; its errors.Unwrap return value is dropped by every caller of
Parse and is not modelled. -/
def RsyslogStats.failToParse (rs : RsyslogStats) : RsyslogStats :=
  { rs with parserFailures := rs.parserFailures + 1 }

/-- Parse from rsyslog_stats.go.  The json.Unmarshal collaborator is
external, so Parse receives its outcome: none for a line that is not
well-formed JSON (or not a JSON object), some data for the decoded
record.  time.Now().Unix() is passed in as now.  The result carries the
final state together with the list of errors reported through
failToParse, or the panic that escaped Parse. -/
def RsyslogStats.Parse (rs : RsyslogStats) (decoded : Option GoObj)
    (now : Int) : Except GoPanic (RsyslogStats × List GoErr) :=
  match decoded with
  | none => .ok (rs.failToParse, [.decodeFailure])
  | some data =>
      let r := identify rs data
      match r.err with
      | some e => .ok (rs.failToParse, [e])
      | none =>
          match parsersByType rs r.st r.name r.origin data with
          | .error p => .error p
          | .ok (m, errs) =>
              .ok ({ rs with
                      parserFailures := rs.parserFailures + errs.length,
                      metrics := mergeMetrics rs.metrics m,
                      parsedMessages := rs.parsedMessages + 1,
                      parseTimestamp := now }, errs)

/-! Helper lemmas about identify. -/

/-- When both comma-ok string assertions fail, the missing-origin error
overwrites the missing-name error: identify returns the empty name and
origin, the default named shape, and the missing-origin error. -/
theorem identify_missing_both (rs : RsyslogStats) (data : GoObj)
    (hname : stringAssert (lookupField data rs.nameField) = ("", false))
    (horigin : stringAssert (lookupField data rs.originField) = ("", false)) :
    identify rs data = ⟨"", "", .rtNamed, some (.missingField rs.originField)⟩ := by
  simp only [identify, hname, horigin]
  rfl

/-! Claim theorems. -/

/-- Input of the C1 failing case: a dynstats record without a values key. -/
def dynNoValues : GoObj := [("name", .str "global"), ("origin", .str "dynstats")]

/-- A dynstats record whose values object has a key without a dot. -/
def dynDotless : GoObj :=
  [("name", .str "global"), ("origin", .str "dynstats"),
   ("values", .obj [("nodot", .num 1)])]

/-- A dynstats record with a non-numeric entry under values. -/
def dynBadValue : GoObj :=
  [("name", .str "global"), ("origin", .str "dynstats"),
   ("values", .obj [("a.b", .bool true)])]

/-- A sender-stat record with a coercible messages field but no sender field. -/
def senderNoSender : GoObj :=
  [("name", .str "_sender_stat"), ("origin", .str "impstats"),
   ("messages", .num 1)]

/-- C1: the claim that Parse never raises an unhandled error fails on the
code: a dynstats record whose values key is absent raises a failed type
assertion, a dynstats values key without a dot raises a slice-bounds
panic inside splitRight, a non-numeric dynstats value raises a failed
type assertion inside appendMetric, and a sender-stat record without a
string sender field raises a failed type assertion; none of these is
recovered anywhere, so each stops the processing loop. -/
theorem c1_parse_panics_on_malformed_records :
    NewRsyslogStats.Parse (some dynNoValues) 0 = .error .typeAssertion ∧
    NewRsyslogStats.Parse (some dynDotless) 0 = .error .sliceBounds ∧
    NewRsyslogStats.Parse (some dynBadValue) 0 = .error .typeAssertion ∧
    NewRsyslogStats.Parse (some senderNoSender) 0 = .error .typeAssertion :=
  ⟨rfl, rfl, rfl, rfl⟩

/-- C2 (amended): a SenderStat record whose messages field fails value
coercion fails as a whole with no partial batch: the failure counter is
incremented once, that coercion error is the single reported error and
the Metric Table is unchanged, but the record still completes the
parsing loop, so the parsed-record counter is incremented and the
latest-parse timestamp is updated. -/
theorem c2_sender_messages_coercion_failure (rs : RsyslogStats) (data : GoObj)
    (n o : String) (e : GoErr) (now : Int)
    (hid : identify rs data = ⟨n, o, .rtSender, none⟩)
    (hmsg : getValue (lookupField data "messages") = .error e) :
    rs.Parse (some data) now =
      .ok ({ rs with
              parserFailures := rs.parserFailures + 1,
              parsedMessages := rs.parsedMessages + 1,
              parseTimestamp := now }, [e]) := by
  simp only [RsyslogStats.Parse, hid, parsersByType, parseSenderStats, hmsg]
  rfl

/-- The concrete C2 input: a sender-stat record whose messages field is a
boolean. -/
def senderBadMessages : GoObj :=
  [("name", .str "_sender_stat"), ("origin", .str "impstats"),
   ("sender", .str "h1"), ("messages", .bool true)]

theorem c2_sender_messages_coercion_failure_witness :
    identify NewRsyslogStats senderBadMessages =
      ⟨"_sender_stat", "impstats", .rtSender, none⟩ ∧
    getValue (lookupField senderBadMessages "messages") =
      .error (.convertType "bool") ∧
    NewRsyslogStats.Parse (some senderBadMessages) 42 =
      .ok ({ NewRsyslogStats with
              parserFailures := 1, parsedMessages := 1,
              parseTimestamp := 42 }, [.convertType "bool"]) :=
  ⟨rfl, rfl,
    c2_sender_messages_coercion_failure NewRsyslogStats senderBadMessages
      "_sender_stat" "impstats" (.convertType "bool") 42 rfl rfl⟩

/-- C2 counterexample to the claim as stated: on a sender-stat record
whose messages field is a boolean, Parse does increment the
parsed-record counter (1, not the claimed unchanged 0) and does update
the latest-parse timestamp (42, not the claimed unchanged 0). -/
theorem c2_sender_messages_coercion_failure_counterexample :
    NewRsyslogStats.Parse (some senderBadMessages) 42 =
      .ok ({ NewRsyslogStats with
              parserFailures := 1, parsedMessages := 1,
              parseTimestamp := 42 }, [.convertType "bool"]) ∧
    (1 : Nat) ≠ NewRsyslogStats.parsedMessages ∧
    (42 : Int) ≠ NewRsyslogStats.parseTimestamp :=
  ⟨rfl, by decide, by decide⟩

/-- C3 (amended): a record in which both the name and the origin comma-ok
string extractions fail increments the failure counter exactly once, and
the single reported error is the missing-origin error, because the
origin check overwrites the earlier missing-name error in the shared
error variable. -/
theorem c3_missing_both_fields_reports_origin (rs : RsyslogStats)
    (data : GoObj) (now : Int)
    (hname : stringAssert (lookupField data rs.nameField) = ("", false))
    (horigin : stringAssert (lookupField data rs.originField) = ("", false)) :
    rs.Parse (some data) now =
      .ok ({ rs with parserFailures := rs.parserFailures + 1 },
        [.missingField rs.originField]) := by
  simp only [RsyslogStats.Parse, identify_missing_both rs data hname horigin]
  rfl

theorem c3_missing_both_fields_reports_origin_witness :
    stringAssert (lookupField ([] : GoObj) NewRsyslogStats.nameField) = ("", false) ∧
    stringAssert (lookupField ([] : GoObj) NewRsyslogStats.originField) = ("", false) ∧
    NewRsyslogStats.Parse (some []) 0 =
      .ok ({ NewRsyslogStats with parserFailures := 1 }, [.missingField "origin"]) :=
  ⟨rfl, rfl, c3_missing_both_fields_reports_origin NewRsyslogStats [] 0 rfl rfl⟩

/-- C3 counterexample to the claim as stated: on the empty record the
single reported error is the missing-origin error, not the claimed
missing-name error. -/
theorem c3_missing_both_fields_counterexample :
    NewRsyslogStats.Parse (some []) 7 =
      .ok ({ NewRsyslogStats with parserFailures := 1 }, [.missingField "origin"]) ∧
    GoErr.missingField "origin" ≠ GoErr.missingField "name" :=
  ⟨rfl, by decide⟩

/-- The decoded form of the C4 input line. -/
def dynstatsGlobalLine : GoObj :=
  [("name", .str "global"), ("origin", .str "dynstats"),
   ("values", .obj [("msg_per_facility.new_metric_add", .num 4)])]

/-- C4: from the initial state, the dynstats line with one compound
counter produces exactly the one-entry Metric Table observing value 4 at
metric rsyslog_dynstats_global_new_metric_add under the counter label
msg_per_facility, with no failures and one parsed message. -/
theorem c4_dynstats_end_to_end (now : Int) :
    NewRsyslogStats.Parse (some dynstatsGlobalLine) now =
      .ok ({ NewRsyslogStats with
              metrics := [("rsyslog_dynstats_global_new_metric_add",
                [(⟨"counter", "msg_per_facility"⟩, 4)])],
              parsedMessages := 1,
              parseTimestamp := now }, []) := rfl

/-- C5: a line that json.Unmarshal rejects increments the failure counter
by exactly one and leaves the Metric Table, the parsed-message counter
and the timestamp untouched; the reported error is the decode error. -/
theorem c5_decode_failure_state_unchanged (rs : RsyslogStats) (now : Int) :
    rs.Parse none now =
      .ok ({ rs with parserFailures := rs.parserFailures + 1 },
        [.decodeFailure]) := rfl

/-- C6: with the name comma-ok extraction succeeding, identify returns
that name; a present string origin is taken as is with no error; an
absent origin is synthesized as omkafka for name omkafka and impstats
for name _sender_stat and is a missing-origin failure otherwise; and the
shape is chosen in priority order dynstats, dynstats.bucket,
_sender_stat, default named. -/
theorem c6_classification (rs : RsyslogStats) (data : GoObj) (n : String)
    (h : stringAssert (lookupField data rs.nameField) = (n, true)) :
    (identify rs data).name = n ∧
    (∀ s, stringAssert (lookupField data rs.originField) = (s, true) →
      (identify rs data).origin = s ∧ (identify rs data).err = none) ∧
    (stringAssert (lookupField data rs.originField) = ("", false) →
      (n = "omkafka" →
        (identify rs data).origin = "omkafka" ∧ (identify rs data).err = none) ∧
      (n = "_sender_stat" →
        (identify rs data).origin = "impstats" ∧ (identify rs data).err = none) ∧
      (n ≠ "omkafka" → n ≠ "_sender_stat" →
        (identify rs data).err = some (.missingField rs.originField))) ∧
    (identify rs data).st =
      (if (identify rs data).origin = "dynstats" then .rtDynstatGlobal
       else if (identify rs data).origin = "dynstats.bucket" then .rtDynstatBucket
       else if n = "_sender_stat" then .rtSender
       else .rtNamed) := by
  refine ⟨by simp [identify, h], ?_, ?_, by simp [identify, h]⟩
  · intro s hs
    simp [identify, h, hs]
  · intro hfail
    refine ⟨?_, ?_, ?_⟩
    · intro hn; subst hn; simp [identify, h, hfail]
    · intro hn; subst hn; simp [identify, h, hfail]
    · intro hn1 hn2
      simp [identify, h, hfail]

theorem c6_classification_witness :
    stringAssert (lookupField
        [(("name" : String), GoValue.str "stats"),
         (("origin" : String), GoValue.str "core.queue")]
        NewRsyslogStats.nameField) = ("stats", true) ∧
    ((identify NewRsyslogStats
        [("name", .str "stats"), ("origin", .str "core.queue")]).name = "stats" ∧
      (∀ s, stringAssert (lookupField
          [("name", .str "stats"), ("origin", .str "core.queue")]
          NewRsyslogStats.originField) = (s, true) →
        (identify NewRsyslogStats
          [("name", .str "stats"), ("origin", .str "core.queue")]).origin = s ∧
        (identify NewRsyslogStats
          [("name", .str "stats"), ("origin", .str "core.queue")]).err = none) ∧
      (stringAssert (lookupField
          [("name", .str "stats"), ("origin", .str "core.queue")]
          NewRsyslogStats.originField) = ("", false) →
        ("stats" = "omkafka" →
          (identify NewRsyslogStats
            [("name", .str "stats"), ("origin", .str "core.queue")]).origin = "omkafka" ∧
          (identify NewRsyslogStats
            [("name", .str "stats"), ("origin", .str "core.queue")]).err = none) ∧
        ("stats" = "_sender_stat" →
          (identify NewRsyslogStats
            [("name", .str "stats"), ("origin", .str "core.queue")]).origin = "impstats" ∧
          (identify NewRsyslogStats
            [("name", .str "stats"), ("origin", .str "core.queue")]).err = none) ∧
        ("stats" ≠ "omkafka" → "stats" ≠ "_sender_stat" →
          (identify NewRsyslogStats
            [("name", .str "stats"), ("origin", .str "core.queue")]).err =
            some (.missingField NewRsyslogStats.originField))) ∧
      (identify NewRsyslogStats
          [("name", .str "stats"), ("origin", .str "core.queue")]).st =
        (if (identify NewRsyslogStats
            [("name", .str "stats"), ("origin", .str "core.queue")]).origin = "dynstats"
          then .rtDynstatGlobal
          else if (identify NewRsyslogStats
            [("name", .str "stats"), ("origin", .str "core.queue")]).origin = "dynstats.bucket"
          then .rtDynstatBucket
          else if "stats" = "_sender_stat" then .rtSender
          else .rtNamed)) :=
  ⟨rfl, c6_classification NewRsyslogStats
    [("name", .str "stats"), ("origin", .str "core.queue")] "stats" rfl⟩

/-- The record with every entry for the key k removed, to compare a
record carrying a non-string value at k with the record that lacks k. -/
def eraseKey : GoObj → String → GoObj
  | [], _ => []
  | kv :: rest, k =>
      if kv.1 = k then eraseKey rest k else kv :: eraseKey rest k

theorem lookupField_eraseKey_self (data : GoObj) (k : String) :
    lookupField (eraseKey data k) k = none := by
  induction data with
  | nil => rfl
  | cons kv rest ih =>
      by_cases hk : kv.1 = k
      · simpa [eraseKey, hk] using ih
      · simpa [eraseKey, hk, lookupField] using ih

theorem lookupField_eraseKey_ne (data : GoObj) (k k2 : String) (h : k2 ≠ k) :
    lookupField (eraseKey data k) k2 = lookupField data k2 := by
  induction data with
  | nil => rfl
  | cons kv rest ih =>
      by_cases hk : kv.1 = k
      · simp [eraseKey, hk, lookupField, Ne.symm h, ih]
      · by_cases h2 : kv.1 = k2
        · simp [eraseKey, hk, lookupField, h2, h]
        · simp [eraseKey, hk, lookupField, h2, ih]

/-- identify only reads the two comma-ok string extractions, so records
agreeing on those classify identically. -/
theorem identify_congr (rs : RsyslogStats) (d1 d2 : GoObj)
    (h1 : stringAssert (lookupField d1 rs.nameField) =
      stringAssert (lookupField d2 rs.nameField))
    (h2 : stringAssert (lookupField d1 rs.originField) =
      stringAssert (lookupField d2 rs.originField)) :
    identify rs d1 = identify rs d2 := by
  simp only [identify, h1, h2]

/-- C10 (amended): a present name key with a non-string value makes the
comma-ok extraction fail exactly as if the key were absent, so
classification of the record equals classification of the record with
the key erased; when the origin field is present as a string the single
reported error is then the missing-name error, the failure counter is
incremented once and the rest of the state is unchanged (when the origin
extraction also fails, the reported error is the missing-origin error of
the amended C3 instead); and the same present-but-non-string collapse
holds for the origin field. -/
theorem c10_nonstring_field_collapses (rs : RsyslogStats) (data : GoObj)
    (v : GoValue) (now : Int)
    (h1 : lookupField data rs.nameField = some v)
    (h2 : stringAssert (some v) = ("", false))
    (h3 : rs.nameField ≠ rs.originField) :
    identify rs data = identify rs (eraseKey data rs.nameField) ∧
    (∀ s, stringAssert (lookupField data rs.originField) = (s, true) →
      rs.Parse (some data) now =
        .ok ({ rs with parserFailures := rs.parserFailures + 1 },
          [.missingField rs.nameField])) ∧
    (∀ w, lookupField data rs.originField = some w →
      stringAssert (some w) = ("", false) →
      identify rs data = identify rs (eraseKey data rs.originField)) := by
  have hname : stringAssert (lookupField data rs.nameField) = ("", false) := by
    rw [h1]; exact h2
  refine ⟨?_, ?_, ?_⟩
  · refine identify_congr rs data _ ?_ ?_
    · rw [lookupField_eraseKey_self, hname]; rfl
    · rw [lookupField_eraseKey_ne data rs.nameField rs.originField
        (fun e => h3 e.symm)]
  · intro s hs
    have herr : (identify rs data).err = some (.missingField rs.nameField) := by
      simp [identify, hname, hs]
    simp only [RsyslogStats.Parse, herr]
    rfl
  · intro w hw hwn
    refine identify_congr rs data _ ?_ ?_
    · rw [lookupField_eraseKey_ne data rs.originField rs.nameField h3]
    · rw [lookupField_eraseKey_self, hw, hwn]; rfl

/-- The C10 witness input: a numeric name field and a string origin. -/
def nameNonStringData : GoObj :=
  [("name", .num 5), ("origin", .str "core.queue")]

theorem c10_nonstring_field_collapses_witness :
    lookupField nameNonStringData NewRsyslogStats.nameField = some (.num 5) ∧
    stringAssert (some (.num 5)) = ("", false) ∧
    NewRsyslogStats.nameField ≠ NewRsyslogStats.originField ∧
    (identify NewRsyslogStats nameNonStringData =
        identify NewRsyslogStats (eraseKey nameNonStringData NewRsyslogStats.nameField) ∧
      (∀ s, stringAssert (lookupField nameNonStringData NewRsyslogStats.originField) =
          (s, true) →
        NewRsyslogStats.Parse (some nameNonStringData) 3 =
          .ok ({ NewRsyslogStats with parserFailures := 1 },
            [.missingField NewRsyslogStats.nameField])) ∧
      (∀ w, lookupField nameNonStringData NewRsyslogStats.originField = some w →
        stringAssert (some w) = ("", false) →
        identify NewRsyslogStats nameNonStringData =
          identify NewRsyslogStats
            (eraseKey nameNonStringData NewRsyslogStats.originField))) :=
  ⟨rfl, rfl, by decide,
    c10_nonstring_field_collapses NewRsyslogStats nameNonStringData (.num 5) 3
      rfl rfl (by decide)⟩

/-- C10 counterexample to the claim as stated: on the record whose name
key holds the number 5 and which lacks an origin field, Parse reports
the missing-origin error, not the claimed missing-name error. -/
theorem c10_nonstring_name_counterexample :
    NewRsyslogStats.Parse (some [("name", .num 5)]) 0 =
      .ok ({ NewRsyslogStats with parserFailures := 1 },
        [.missingField "origin"]) ∧
    GoErr.missingField "origin" ≠ GoErr.missingField "name" :=
  ⟨rfl, by decide⟩

/-! Lemmas about the metric table merge. -/

theorem lookupLV_insertLV (lv : RsyslogStatsLabeledValues)
    (l l' : RsyslogStatsLabels) (v : Int) :
    lookupLV (insertLV lv l v) l' = if l' = l then some v else lookupLV lv l' := by
  induction lv with
  | nil =>
      by_cases h : l' = l
      · simp [insertLV, lookupLV, h]
      · simp [insertLV, lookupLV, h, Ne.symm h]
  | cons p rest ih =>
      by_cases hp : p.1 = l
      · by_cases h : l' = l
        · simp [insertLV, lookupLV, hp, h]
        · simp [insertLV, lookupLV, hp, h, Ne.symm h]
      · by_cases h2 : p.1 = l'
        · have hne : l' ≠ l := fun e => hp (h2.symm ▸ e)
          simp [insertLV, lookupLV, hp, h2, hne]
        · simp [insertLV, lookupLV, hp, h2, ih]

theorem lookupM_insertM (m : RsyslogStatsMetrics) (n n' : String)
    (l l' : RsyslogStatsLabels) (v : Int) :
    lookupM (insertM m n l v) n' l' =
      if n' = n then
        (if l' = l then some v else lookupM m n' l')
      else lookupM m n' l' := by
  induction m with
  | nil =>
      by_cases hn : n' = n
      · subst hn
        by_cases hl : l' = l
        · simp [insertM, lookupM, lookupLV, hl]
        · simp [insertM, lookupM, lookupLV, hl, Ne.symm hl]
      · simp [insertM, lookupM, lookupLV, hn, Ne.symm hn]
  | cons p rest ih =>
      by_cases hp : p.1 = n
      · by_cases hn : n' = n
        · subst hn
          simp [insertM, lookupM, hp, lookupLV_insertLV]
        · simp [insertM, lookupM, hp, hn, Ne.symm hn]
      · by_cases h2 : p.1 = n'
        · have hne : n' ≠ n := fun e => hp (h2.symm ▸ e)
          simp [insertM, lookupM, hp, h2, hne]
        · simp [insertM, lookupM, hp, h2, ih]

theorem lookupLV_eq_none (lv : RsyslogStatsLabeledValues)
    (l : RsyslogStatsLabels) (h : l ∉ lv.map Prod.fst) : lookupLV lv l = none := by
  induction lv with
  | nil => rfl
  | cons p rest ih =>
      simp only [List.map_cons, List.mem_cons, not_or] at h
      have h1 : l ≠ p.1 := h.1
      simp [lookupLV, Ne.symm h1, ih h.2]

theorem lookupM_eq_none (m : RsyslogStatsMetrics) (n : String)
    (l : RsyslogStatsLabels) (h : n ∉ m.map Prod.fst) : lookupM m n l = none := by
  induction m with
  | nil => rfl
  | cons p rest ih =>
      simp only [List.map_cons, List.mem_cons, not_or] at h
      have h1 : n ≠ p.1 := h.1
      simp [lookupM, Ne.symm h1, ih h.2]

/-- One bucket of the add loop: folding the labeled values of one metric
into the table only affects that metric, where the last write per label
wins (the bucket has unique labels in any Go-map-produced batch). -/
theorem lookupM_bucketFold (lv : RsyslogStatsLabeledValues) (t : RsyslogStatsMetrics)
    (nm : String) (hlv : (lv.map Prod.fst).Nodup) (n : String)
    (l : RsyslogStatsLabels) :
    lookupM (lv.foldl (fun t q => insertM t nm q.1 q.2) t) n l =
      if n = nm then
        (match lookupLV lv l with
         | some v => some v
         | none => lookupM t n l)
      else lookupM t n l := by
  induction lv generalizing t with
  | nil =>
      by_cases hn : n = nm <;> simp [lookupLV, hn]
  | cons p rest ih =>
      simp only [List.map_cons, List.nodup_cons] at hlv
      rw [List.foldl_cons, ih _ hlv.2]
      by_cases hn : n = nm
      · subst hn
        by_cases hl : l = p.1
        · have hrest : lookupLV rest p.1 = none :=
            lookupLV_eq_none rest p.1 hlv.1
          simp [lookupLV, hl, hrest, lookupM_insertM]
        · simp [lookupLV, Ne.symm hl, hl, lookupM_insertM]
      · simp [lookupLV, hn, lookupM_insertM]

/-- Batch well-formedness: what every batch built from Go maps satisfies,
unique metric names and unique labels per metric. -/
def WFM (m : RsyslogStatsMetrics) : Prop :=
  (m.map Prod.fst).Nodup ∧ ∀ p ∈ m, (p.2.map Prod.fst).Nodup

instance : DecidablePred WFM := fun m =>
  decidable_of_iff ((m.map Prod.fst).Nodup ∧ ∀ p ∈ m, (p.2.map Prod.fst).Nodup)
    Iff.rfl

/-- The merge of a well-formed batch is a per-key overwrite of the table:
a key present in the batch gets the batch value, every other key keeps
the table value. -/
theorem lookupM_mergeMetrics (b t : RsyslogStatsMetrics)
    (hb : WFM b) (n : String) (l : RsyslogStatsLabels) :
    lookupM (mergeMetrics t b) n l =
      match lookupM b n l with
      | some v => some v
      | none => lookupM t n l := by
  induction b generalizing t with
  | nil => simp [mergeMetrics, lookupM]
  | cons p rest ih =>
      obtain ⟨hnames, hbuckets⟩ := hb
      simp only [List.map_cons, List.nodup_cons] at hnames
      have hbWF : WFM rest :=
        ⟨hnames.2, fun q hq => hbuckets q (List.mem_cons_of_mem p hq)⟩
      have hstep : mergeMetrics t (p :: rest) =
          mergeMetrics (p.2.foldl (fun t q => insertM t p.1 q.1 q.2) t) rest := rfl
      rw [hstep, ih _ hbWF]
      have hbucket := lookupM_bucketFold p.2 t p.1
        (hbuckets p (List.mem_cons_self p rest)) n l
      by_cases hp : p.1 = n
      · have hnone : lookupM rest n l = none :=
          lookupM_eq_none rest n l (hp ▸ hnames.1)
        rw [hp] at hbucket
        simp only [if_pos rfl] at hbucket
        simp [lookupM, hp, hnone, hbucket]
      · have hne : n ≠ p.1 := fun e => hp e.symm
        simp [lookupM, hp, hbucket, hne]

/-- C9: for every table state and well-formed batches, merging two
batches whose metric-name sets are disjoint keeps every observation of
both (their union); merging two batches that share a (metric name,
label) key leaves the later merges value at that key, with no
accumulation; and every key in neither batch keeps its pre-existing
table value. -/
theorem c9_merge_batches (t b1 b2 : RsyslogStatsMetrics) (n : String)
    (l : RsyslogStatsLabels) (h1 : WFM b1) (h2 : WFM b2) :
    ((∀ x ∈ b1.map Prod.fst, x ∉ b2.map Prod.fst) →
      (∀ v, lookupM b1 n l = some v →
        lookupM (mergeMetrics (mergeMetrics t b1) b2) n l = some v) ∧
      (∀ v, lookupM b2 n l = some v →
        lookupM (mergeMetrics (mergeMetrics t b1) b2) n l = some v)) ∧
    (∀ v1 v2, lookupM b1 n l = some v1 → lookupM b2 n l = some v2 →
      lookupM (mergeMetrics (mergeMetrics t b1) b2) n l = some v2) ∧
    (lookupM b1 n l = none → lookupM b2 n l = none →
      lookupM (mergeMetrics (mergeMetrics t b1) b2) n l = lookupM t n l) := by
  have hm2 := lookupM_mergeMetrics b2 (mergeMetrics t b1) h2 n l
  have hm1 := lookupM_mergeMetrics b1 t h1 n l
  refine ⟨?_, ?_, ?_⟩
  · intro hdisj
    constructor
    · intro v hv
      have hmem : n ∈ b1.map Prod.fst := by
        by_contra hmem
        rw [lookupM_eq_none b1 n l hmem] at hv
        exact Option.noConfusion hv
      have h2none : lookupM b2 n l = none :=
        lookupM_eq_none b2 n l (hdisj n hmem)
      simp [hm2, h2none, hm1, hv]
    · intro v hv
      simp [hm2, hv]
  · intro v1 v2 hv1 hv2
    simp [hm2, hv2]
  · intro h1n h2n
    simp [hm2, h2n, hm1, h1n]

/-- Concrete table and batches for the C9 witness. -/
def tableW : RsyslogStatsMetrics := [("rsyslog_a", [(⟨"name", "q"⟩, 7)])]

def batch1W : RsyslogStatsMetrics := [("rsyslog_b", [(⟨"name", "x"⟩, 1)])]

def batch2W : RsyslogStatsMetrics := [("rsyslog_c", [(⟨"name", "y"⟩, 2)])]

theorem c9_merge_batches_witness :
    WFM batch1W ∧ WFM batch2W ∧
    (((∀ x ∈ batch1W.map Prod.fst, x ∉ batch2W.map Prod.fst) →
      (∀ v, lookupM batch1W "rsyslog_b" ⟨"name", "x"⟩ = some v →
        lookupM (mergeMetrics (mergeMetrics tableW batch1W) batch2W)
          "rsyslog_b" ⟨"name", "x"⟩ = some v) ∧
      (∀ v, lookupM batch2W "rsyslog_b" ⟨"name", "x"⟩ = some v →
        lookupM (mergeMetrics (mergeMetrics tableW batch1W) batch2W)
          "rsyslog_b" ⟨"name", "x"⟩ = some v)) ∧
    (∀ v1 v2, lookupM batch1W "rsyslog_b" ⟨"name", "x"⟩ = some v1 →
      lookupM batch2W "rsyslog_b" ⟨"name", "x"⟩ = some v2 →
      lookupM (mergeMetrics (mergeMetrics tableW batch1W) batch2W)
        "rsyslog_b" ⟨"name", "x"⟩ = some v2) ∧
    (lookupM batch1W "rsyslog_b" ⟨"name", "x"⟩ = none →
      lookupM batch2W "rsyslog_b" ⟨"name", "x"⟩ = none →
      lookupM (mergeMetrics (mergeMetrics tableW batch1W) batch2W)
        "rsyslog_b" ⟨"name", "x"⟩ = lookupM tableW "rsyslog_b" ⟨"name", "x"⟩)) :=
  ⟨by decide, by decide,
    c9_merge_batches tableW batch1W batch2W "rsyslog_b" ⟨"name", "x"⟩
      (by decide) (by decide)⟩

/-! Lemmas about parseNamedStats for the partial-failure claim. -/

/-- Whether getValue coerces the value (the ok side of the coercion). -/
def coercesOk (v : GoValue) : Bool :=
  match getValue (some v) with
  | .ok _ => true
  | .error _ => false

/-- The error getValue reports for a value; meaningful when coercesOk is
false (the ok side carries a placeholder never used by the lemmas). -/
def coerceErr (v : GoValue) : GoErr :=
  match getValue (some v) with
  | .ok _ => .decodeFailure
  | .error e => e

/-- The metric name a named-counters field k is stored under. -/
def sanNamed (rs : RsyslogStats) (origin k : String) : String :=
  sanitiseMetricName (rs.metricPfx ++ "_" ++ origin ++ "_" ++ k)

theorem parseNamedStep_skip (rs : RsyslogStats) (n o : String)
    (acc : RsyslogStatsMetrics × List GoErr) (kv : String × GoValue)
    (hs : skipsField rs kv.1 = true) :
    parseNamedStep rs n o acc kv = acc := by
  simp [parseNamedStep, hs]

theorem parseNamedStep_err (rs : RsyslogStats) (n o : String)
    (acc : RsyslogStatsMetrics × List GoErr) (kv : String × GoValue) (e : GoErr)
    (hs : skipsField rs kv.1 = false) (he : getValue (some kv.2) = .error e) :
    parseNamedStep rs n o acc kv = (acc.1, acc.2 ++ [e]) := by
  simp [parseNamedStep, hs, he]

theorem parseNamedStep_ok (rs : RsyslogStats) (n o : String)
    (acc : RsyslogStatsMetrics × List GoErr) (kv : String × GoValue) (q : Rat)
    (hs : skipsField rs kv.1 = false) (hq : getValue (some kv.2) = .ok q) :
    parseNamedStep rs n o acc kv =
      (insertM acc.1 (sanNamed rs o kv.1) ⟨"name", n⟩ (truncFloat q), acc.2) := by
  simp [parseNamedStep, hs, hq, appendMetricNum, sanNamed]

/-- The per-field errors of the named-counters loop are exactly the
coercion errors of the non-skipped fields that fail, in field order. -/
theorem parseNamed_foldl_errs (rs : RsyslogStats) (n o : String) (data : GoObj) :
    ∀ (m0 : RsyslogStatsMetrics) (e0 : List GoErr),
    (data.foldl (parseNamedStep rs n o) (m0, e0)).2 =
      e0 ++ (data.filter (fun kv => !skipsField rs kv.1 && !coercesOk kv.2)).map
        (fun kv => coerceErr kv.2) := by
  induction data with
  | nil => intro m0 e0; simp
  | cons p rest ih =>
      intro m0 e0
      rw [List.foldl_cons]
      cases hs : skipsField rs p.1 with
      | true =>
          rw [parseNamedStep_skip rs n o _ p hs, ih m0 e0, List.filter_cons]
          simp [hs]
      | false =>
          cases hv : getValue (some p.2) with
          | error e =>
              have hco : coercesOk p.2 = false := by simp [coercesOk, hv]
              have hce : coerceErr p.2 = e := by simp [coerceErr, hv]
              rw [parseNamedStep_err rs n o _ p e hs hv, ih m0 (e0 ++ [e]),
                List.filter_cons]
              simp [hs, hco, hce]
          | ok q =>
              have hco : coercesOk p.2 = true := by simp [coercesOk, hv]
              rw [parseNamedStep_ok rs n o _ p q hs hv, ih _ e0, List.filter_cons]
              simp [hs, hco]

/-- The named-counters loop never writes a metric name that none of its
coercing fields sanitizes to. -/
theorem parseNamed_foldl_preserve (rs : RsyslogStats) (n o : String)
    (data : GoObj) :
    ∀ (m0 : RsyslogStatsMetrics) (e0 : List GoErr) (N : String)
      (L : RsyslogStatsLabels),
    (∀ kv ∈ data, skipsField rs kv.1 = false → coercesOk kv.2 = true →
      sanNamed rs o kv.1 ≠ N) →
    lookupM (data.foldl (parseNamedStep rs n o) (m0, e0)).1 N L =
      lookupM m0 N L := by
  induction data with
  | nil => intro m0 e0 N L _; rfl
  | cons p rest ih =>
      intro m0 e0 N L h
      rw [List.foldl_cons]
      cases hs : skipsField rs p.1 with
      | true =>
          rw [parseNamedStep_skip rs n o _ p hs]
          exact ih m0 e0 N L (fun kv hkv => h kv (List.mem_cons_of_mem p hkv))
      | false =>
          cases hv : getValue (some p.2) with
          | error e =>
              rw [parseNamedStep_err rs n o _ p e hs hv]
              exact ih m0 (e0 ++ [e]) N L
                (fun kv hkv => h kv (List.mem_cons_of_mem p hkv))
          | ok q =>
              rw [parseNamedStep_ok rs n o _ p q hs hv]
              rw [ih _ e0 N L (fun kv hkv => h kv (List.mem_cons_of_mem p hkv))]
              have hco : coercesOk p.2 = true := by simp [coercesOk, hv]
              have hne := h p (List.mem_cons_self p rest) hs hco
              rw [lookupM_insertM]
              simp [Ne.symm hne]

/-- Every coercing, non-skipped field of a record whose fields sanitize
to pairwise distinct metric names ends up in the batch with its
truncated value. -/
theorem parseNamed_foldl_lookup (rs : RsyslogStats) (n o : String)
    (data : GoObj) :
    ∀ (m0 : RsyslogStatsMetrics) (e0 : List GoErr) (kv : String × GoValue)
      (q : Rat),
    kv ∈ data → skipsField rs kv.1 = false → getValue (some kv.2) = .ok q →
    (data.map (fun kv => sanNamed rs o kv.1)).Nodup →
    lookupM (data.foldl (parseNamedStep rs n o) (m0, e0)).1
      (sanNamed rs o kv.1) ⟨"name", n⟩ = some (truncFloat q) := by
  induction data with
  | nil => intro m0 e0 kv q hmem; exact absurd hmem (List.not_mem_nil kv)
  | cons p rest ih =>
      intro m0 e0 kv q hmem hs hq hnd
      simp only [List.map_cons, List.nodup_cons] at hnd
      rw [List.foldl_cons]
      rcases List.mem_cons.mp hmem with heq | hmem2
      · subst heq
        rw [parseNamedStep_ok rs n o _ kv q hs hq]
        have hpre : ∀ kv2 ∈ rest, skipsField rs kv2.1 = false →
            coercesOk kv2.2 = true → sanNamed rs o kv2.1 ≠ sanNamed rs o kv.1 := by
          intro kv2 hkv2 hs2 hco2 hEq
          exact hnd.1 (List.mem_map.mpr ⟨kv2, hkv2, hEq⟩)
        rw [parseNamed_foldl_preserve rs n o rest
            (insertM m0 (sanNamed rs o kv.1) ⟨"name", n⟩ (truncFloat q)) e0
            (sanNamed rs o kv.1) ⟨"name", n⟩ hpre,
          lookupM_insertM]
        simp
      · rw [show parseNamedStep rs n o (m0, e0) p =
            ((parseNamedStep rs n o (m0, e0) p).1,
              (parseNamedStep rs n o (m0, e0) p).2) from rfl]
        exact ih _ _ kv q hmem2 hs hq hnd.2

theorem keys_insertLV (lv : RsyslogStatsLabeledValues) (l : RsyslogStatsLabels)
    (v : Int) :
    ∀ x ∈ (insertLV lv l v).map Prod.fst, x ∈ lv.map Prod.fst ∨ x = l := by
  induction lv with
  | nil =>
      intro x hx
      simp [insertLV] at hx
      exact Or.inr hx
  | cons p rest ih =>
      intro x hx
      by_cases hp : p.1 = l
      · simp only [insertLV, if_pos hp, List.map_cons, List.mem_cons] at hx
        rcases hx with h | h
        · exact Or.inl (by simp [h])
        · exact Or.inl (by simp [h])
      · simp only [insertLV, if_neg hp, List.map_cons, List.mem_cons] at hx
        rcases hx with h | h
        · exact Or.inl (by simp [h])
        · rcases ih x h with h2 | h2
          · exact Or.inl (by simp [h2])
          · exact Or.inr h2

theorem keys_insertM (m : RsyslogStatsMetrics) (nm : String)
    (l : RsyslogStatsLabels) (v : Int) :
    ∀ x ∈ (insertM m nm l v).map Prod.fst, x ∈ m.map Prod.fst ∨ x = nm := by
  induction m with
  | nil =>
      intro x hx
      simp [insertM] at hx
      exact Or.inr hx
  | cons p rest ih =>
      intro x hx
      by_cases hp : p.1 = nm
      · simp only [insertM, if_pos hp, List.map_cons, List.mem_cons] at hx
        rcases hx with h | h
        · exact Or.inl (by simp [h])
        · exact Or.inl (by simp [h])
      · simp only [insertM, if_neg hp, List.map_cons, List.mem_cons] at hx
        rcases hx with h | h
        · exact Or.inl (by simp [h])
        · rcases ih x h with h2 | h2
          · exact Or.inl (by simp [h2])
          · exact Or.inr h2

theorem nodup_keys_insertLV (lv : RsyslogStatsLabeledValues)
    (l : RsyslogStatsLabels) (v : Int) (h : (lv.map Prod.fst).Nodup) :
    ((insertLV lv l v).map Prod.fst).Nodup := by
  induction lv with
  | nil => simp [insertLV]
  | cons p rest ih =>
      simp only [List.map_cons, List.nodup_cons] at h
      by_cases hp : p.1 = l
      · simp only [insertLV, if_pos hp, List.map_cons, List.nodup_cons]
        exact ⟨h.1, h.2⟩
      · simp only [insertLV, if_neg hp, List.map_cons, List.nodup_cons]
        refine ⟨?_, ih h.2⟩
        intro hmem
        rcases keys_insertLV rest l v p.1 hmem with h2 | h2
        · exact h.1 h2
        · exact hp h2

theorem WFM_insertM (m : RsyslogStatsMetrics) (nm : String)
    (l : RsyslogStatsLabels) (v : Int) (h : WFM m) : WFM (insertM m nm l v) := by
  induction m with
  | nil =>
      refine ⟨by simp [insertM], ?_⟩
      intro p hp
      simp only [insertM, List.mem_singleton] at hp
      subst hp
      simp [insertLV]
  | cons p rest ih =>
      obtain ⟨hnames, hbuckets⟩ := h
      simp only [List.map_cons, List.nodup_cons] at hnames
      obtain ⟨ihn, ihb⟩ := ih
        ⟨hnames.2, fun q hq => hbuckets q (List.mem_cons_of_mem p hq)⟩
      by_cases hp : p.1 = nm
      · refine ⟨?_, ?_⟩
        · simp only [insertM, if_pos hp, List.map_cons, List.nodup_cons]
          exact ⟨hnames.1, hnames.2⟩
        · intro q hq
          simp only [insertM, if_pos hp, List.mem_cons] at hq
          rcases hq with h1 | h1
          · subst h1
            exact nodup_keys_insertLV p.2 l v
              (hbuckets p (List.mem_cons_self p rest))
          · exact hbuckets q (List.mem_cons_of_mem p h1)
      · refine ⟨?_, ?_⟩
        · simp only [insertM, if_neg hp, List.map_cons, List.nodup_cons]
          refine ⟨?_, ihn⟩
          intro hmem
          rcases keys_insertM rest nm l v p.1 hmem with h2 | h2
          · exact hnames.1 h2
          · exact hp h2
        · intro q hq
          simp only [insertM, if_neg hp, List.mem_cons] at hq
          rcases hq with h1 | h1
          · subst h1
            exact hbuckets p (List.mem_cons_self p rest)
          · exact ihb q h1

theorem WFM_parseNamed_foldl (rs : RsyslogStats) (n o : String) (data : GoObj) :
    ∀ (m0 : RsyslogStatsMetrics) (e0 : List GoErr), WFM m0 →
    WFM (data.foldl (parseNamedStep rs n o) (m0, e0)).1 := by
  induction data with
  | nil => intro m0 e0 h; exact h
  | cons p rest ih =>
      intro m0 e0 h
      rw [List.foldl_cons]
      cases hs : skipsField rs p.1 with
      | true =>
          rw [parseNamedStep_skip rs n o _ p hs]
          exact ih m0 e0 h
      | false =>
          cases hv : getValue (some p.2) with
          | error e =>
              rw [parseNamedStep_err rs n o _ p e hs hv]
              exact ih m0 (e0 ++ [e]) h
          | ok q =>
              rw [parseNamedStep_ok rs n o _ p q hs hv]
              exact ih _ e0 (WFM_insertM m0 _ _ _ h)

/-- C7: a NamedCounters record with exactly one field failing coercion
among otherwise valid counter fields still completes as parsed: the
failure counter is incremented by exactly one (the single per-field
error), the parsed-record counter is incremented, the timestamp is
updated, the batch merged is the one parseNamedStats built, and every
valid non-skipped field is observable in the resulting Metric Table
under its sanitized metric name with the name label (stated for records
whose fields sanitize to pairwise distinct metric names, as any real
counter set does). -/
theorem c7_named_partial_failure (rs : RsyslogStats) (data : GoObj)
    (n o : String) (now : Int)
    (hid : identify rs data = ⟨n, o, .rtNamed, none⟩)
    (hone : (data.filter
      (fun kv => !skipsField rs kv.1 && !coercesOk kv.2)).length = 1)
    (hnodup : (data.map (fun kv => sanNamed rs o kv.1)).Nodup) :
    rs.Parse (some data) now =
      .ok ({ rs with
              parserFailures := rs.parserFailures + 1,
              metrics := mergeMetrics rs.metrics (parseNamedStats rs n o data).1,
              parsedMessages := rs.parsedMessages + 1,
              parseTimestamp := now }, (parseNamedStats rs n o data).2) ∧
    (parseNamedStats rs n o data).2.length = 1 ∧
    (∀ kv ∈ data, skipsField rs kv.1 = false → ∀ q,
      getValue (some kv.2) = .ok q →
      lookupM (mergeMetrics rs.metrics (parseNamedStats rs n o data).1)
        (sanNamed rs o kv.1) ⟨"name", n⟩ = some (truncFloat q)) := by
  have hlen : (parseNamedStats rs n o data).2.length = 1 := by
    rw [parseNamedStats, parseNamed_foldl_errs rs n o data [] []]
    simpa using hone
  refine ⟨?_, hlen, ?_⟩
  · simp only [RsyslogStats.Parse, hid, parsersByType]
    rw [hlen]
  · intro kv hkv hskip q hq
    have hWF : WFM (parseNamedStats rs n o data).1 := by
      rw [parseNamedStats]
      exact WFM_parseNamed_foldl rs n o data [] [] ⟨by simp, by simp⟩
    have hbatch : lookupM (parseNamedStats rs n o data).1
        (sanNamed rs o kv.1) ⟨"name", n⟩ = some (truncFloat q) := by
      rw [parseNamedStats]
      exact parseNamed_foldl_lookup rs n o data [] [] kv q hkv hskip hq hnodup
    rw [lookupM_mergeMetrics (parseNamedStats rs n o data).1 rs.metrics hWF,
      hbatch]

/-- The concrete C7 input: two valid counters around one boolean field. -/
def namedOneBadField : GoObj :=
  [("name", .str "stats"), ("origin", .str "core.queue"),
   ("size", .num 1), ("bad", .bool true), ("enqueued", .num 42)]

theorem c7_named_partial_failure_witness :
    identify NewRsyslogStats namedOneBadField =
      ⟨"stats", "core.queue", .rtNamed, none⟩ ∧
    (namedOneBadField.filter
      (fun kv => !skipsField NewRsyslogStats kv.1 && !coercesOk kv.2)).length = 1 ∧
    (namedOneBadField.map
      (fun kv => sanNamed NewRsyslogStats "core.queue" kv.1)).Nodup ∧
    (NewRsyslogStats.Parse (some namedOneBadField) 9 =
      .ok ({ NewRsyslogStats with
              parserFailures := 1,
              metrics := mergeMetrics NewRsyslogStats.metrics
                (parseNamedStats NewRsyslogStats "stats" "core.queue"
                  namedOneBadField).1,
              parsedMessages := 1,
              parseTimestamp := 9 },
        (parseNamedStats NewRsyslogStats "stats" "core.queue" namedOneBadField).2) ∧
    (parseNamedStats NewRsyslogStats "stats" "core.queue" namedOneBadField).2.length = 1 ∧
    (∀ kv ∈ namedOneBadField, skipsField NewRsyslogStats kv.1 = false → ∀ q,
      getValue (some kv.2) = .ok q →
      lookupM (mergeMetrics NewRsyslogStats.metrics
          (parseNamedStats NewRsyslogStats "stats" "core.queue" namedOneBadField).1)
        (sanNamed NewRsyslogStats "core.queue" kv.1) ⟨"name", "stats"⟩ =
        some (truncFloat q))) :=
  ⟨rfl, by decide, by decide,
    c7_named_partial_failure NewRsyslogStats namedOneBadField "stats" "core.queue" 9
      rfl (by decide) (by decide)⟩

/-! Lemmas about sanitiseMetricName for the idempotence claim. -/

/-- The output alphabet of the sanitizer: lowercase letters, digits and
the underscore. -/
def goodChar (c : Char) : Bool :=
  c.toNat = 95 || (97 ≤ c.toNat && c.toNat ≤ 122) ||
    (48 ≤ c.toNat && c.toNat ≤ 57)

theorem goodChar_replace_lower (c : Char) :
    goodChar (replaceBad (toLowerChar c)) = true := by
  rw [toLowerChar]
  by_cases h : 65 ≤ c.toNat ∧ c.toNat ≤ 90
  · rw [if_pos h]
    have key : ∀ n : Nat, 65 ≤ n → n ≤ 90 →
        goodChar (replaceBad (Char.ofNat (n + 32))) = true := by
      intro n h1 h2
      interval_cases n <;> decide
    exact key c.toNat h.1 h.2
  · rw [if_neg h, replaceBad]
    by_cases hok : isOkChar c
    · rw [if_pos hok]
      simp only [isOkChar, Bool.or_eq_true, Bool.and_eq_true,
        decide_eq_true_eq] at hok
      simp only [goodChar, Bool.or_eq_true, Bool.and_eq_true,
        decide_eq_true_eq]
      omega
    · rw [if_neg hok]
      decide

theorem toLowerChar_fixed (c : Char) (h : goodChar c = true) :
    toLowerChar c = c := by
  have hc : ¬(65 ≤ c.toNat ∧ c.toNat ≤ 90) := by
    simp only [goodChar, Bool.or_eq_true, Bool.and_eq_true,
      decide_eq_true_eq] at h
    omega
  rw [toLowerChar, if_neg hc]

theorem replaceBad_fixed (c : Char) (h : goodChar c = true) :
    replaceBad c = c := by
  have hc : isOkChar c = true := by
    simp only [goodChar, Bool.or_eq_true, Bool.and_eq_true,
      decide_eq_true_eq] at h
    simp only [isOkChar, Bool.or_eq_true, Bool.and_eq_true,
      decide_eq_true_eq]
    omega
  rw [replaceBad, if_pos hc]

theorem mem_squash : ∀ (cs : List Char) (x : Char), x ∈ squash cs → x ∈ cs := by
  intro cs
  induction cs with
  | nil => intro x hx; simp [squash] at hx
  | cons a tail ih =>
      cases tail with
      | nil => intro x hx; simpa [squash] using hx
      | cons b rest =>
          intro x hx
          by_cases h : a = '_' ∧ b = '_'
          · simp only [squash, if_pos h] at hx
            exact List.mem_cons_of_mem a (ih x hx)
          · simp only [squash, if_neg h] at hx
            rcases List.mem_cons.mp hx with h1 | h1
            · exact h1 ▸ List.mem_cons_self a _
            · exact List.mem_cons_of_mem a (ih x h1)

theorem squash_head? : ∀ (rest : List Char) (a : Char),
    (squash (a :: rest)).head? = some a := by
  intro rest
  induction rest with
  | nil => intro a; simp [squash]
  | cons b r ih =>
      intro a
      by_cases h : a = '_' ∧ b = '_'
      · simp only [squash, if_pos h]
        rw [ih b, h.1, h.2]
      · simp only [squash, if_neg h]
        rfl

theorem squash_chain' : ∀ cs : List Char,
    List.Chain' (fun a b => ¬(a = '_' ∧ b = '_')) (squash cs) := by
  intro cs
  induction cs with
  | nil => simp [squash]
  | cons a tail ih =>
      cases tail with
      | nil => simp [squash]
      | cons b rest =>
          by_cases h : a = '_' ∧ b = '_'
          · simpa only [squash, if_pos h] using ih
          · simp only [squash, if_neg h]
            rw [List.chain'_cons']
            refine ⟨?_, ih⟩
            intro y hy
            rw [squash_head? rest b] at hy
            have hyb : y = b := (Option.mem_some_iff.mp hy).symm
            rw [hyb]
            exact h

theorem squash_of_chain' : ∀ cs : List Char,
    List.Chain' (fun a b => ¬(a = '_' ∧ b = '_')) cs → squash cs = cs := by
  intro cs
  induction cs with
  | nil => intro _; rfl
  | cons a tail ih =>
      cases tail with
      | nil => intro _; simp [squash]
      | cons b rest =>
          intro h
          rw [List.chain'_cons'] at h
          have hab : ¬(a = '_' ∧ b = '_') := h.1 b (by simp)
          simp only [squash, if_neg hab]
          rw [ih h.2]

theorem dropWhile_head?_false (p : Char → Bool) :
    ∀ (l : List Char) (x : Char), (l.dropWhile p).head? = some x →
    p x = false := by
  intro l
  induction l with
  | nil => intro x hx; simp [List.dropWhile] at hx
  | cons a tail ih =>
      intro x hx
      rw [List.dropWhile_cons] at hx
      by_cases h : p a
      · rw [if_pos h] at hx
        exact ih x hx
      · rw [if_neg h] at hx
        have hax : a = x := by simpa using hx
        rw [← hax]
        exact Bool.not_eq_true _ ▸ h

theorem mem_dropWhile (p : Char → Bool) :
    ∀ (l : List Char) (x : Char), x ∈ l.dropWhile p → x ∈ l := by
  intro l
  induction l with
  | nil => intro x hx; exact hx
  | cons a tail ih =>
      intro x hx
      rw [List.dropWhile_cons] at hx
      by_cases h : p a
      · rw [if_pos h] at hx
        exact List.mem_cons_of_mem a (ih x hx)
      · rw [if_neg h] at hx
        exact hx

theorem mem_stripTrailing (cs : List Char) (x : Char)
    (hx : x ∈ stripTrailing cs) : x ∈ cs := by
  simp only [stripTrailing] at hx
  rw [List.mem_reverse] at hx
  have := mem_dropWhile _ _ x hx
  rwa [List.mem_reverse] at this

theorem chain'_dropWhile (R : Char → Char → Prop) (p : Char → Bool) :
    ∀ l : List Char, List.Chain' R l → List.Chain' R (l.dropWhile p) := by
  intro l
  induction l with
  | nil => intro h; exact h
  | cons a tail ih =>
      intro h
      rw [List.dropWhile_cons]
      by_cases hp : p a
      · rw [if_pos hp]
        exact ih h.tail
      · rw [if_neg hp]
        exact h

theorem chain'_stripTrailing (R : Char → Char → Prop) (cs : List Char)
    (h : List.Chain' R cs) : List.Chain' R (stripTrailing cs) := by
  simp only [stripTrailing]
  rw [List.chain'_reverse]
  exact chain'_dropWhile (flip R) _ cs.reverse (List.chain'_reverse.mpr h)

theorem stripTrailing_getLast? (cs : List Char) :
    (stripTrailing cs).getLast? ≠ some '_' := by
  simp only [stripTrailing]
  rw [List.getLast?_reverse]
  intro hcon
  have := dropWhile_head?_false _ _ _ hcon
  simp at this

theorem stripTrailing_of_getLast? (cs : List Char)
    (h : ∀ x, cs.getLast? = some x → x ≠ '_') : stripTrailing cs = cs := by
  simp only [stripTrailing]
  cases hrev : cs.reverse with
  | nil =>
      have hnil : cs = [] := by
        have := congrArg List.reverse hrev
        simpa using this
      subst hnil
      rfl
  | cons a tail =>
      have ha : a ≠ '_' := by
        apply h
        rw [← List.head?_reverse cs, hrev]
        rfl
      rw [List.dropWhile_cons, if_neg (by simp [ha])]
      rw [← hrev, List.reverse_reverse]

theorem map_fixed {α : Type} (f : α → α) :
    ∀ l : List α, (∀ x ∈ l, f x = x) → l.map f = l := by
  intro l
  induction l with
  | nil => intro _; rfl
  | cons a tail ih =>
      intro h
      rw [List.map_cons, h a (List.mem_cons_self a tail),
        ih (fun x hx => h x (List.mem_cons_of_mem a hx))]

theorem mem_sanitise_good (s : String) (x : Char)
    (hx : x ∈ (sanitiseMetricName s).data) : goodChar x = true := by
  have hx2 : x ∈ squash ((s.data.map toLowerChar).map replaceBad) :=
    mem_stripTrailing _ x hx
  have hx3 : x ∈ (s.data.map toLowerChar).map replaceBad :=
    mem_squash _ x hx2
  rw [List.map_map] at hx3
  rcases List.mem_map.mp hx3 with ⟨c, _, hcx⟩
  rw [← hcx]
  exact goodChar_replace_lower c

/-- C8: the sanitizer is total and deterministic (it is a function of its
input alone), idempotent, its output uses only lowercase letters, digits
and underscore with no repeated and no trailing underscore, and the
documented example holds. -/
theorem c8_sanitise_idempotent_shape (s : String) :
    sanitiseMetricName (sanitiseMetricName s) = sanitiseMetricName s ∧
    ((sanitiseMetricName s).data.all goodChar = true ∧
      List.Chain' (fun a b => ¬(a = '_' ∧ b = '_'))
        (sanitiseMetricName s).data ∧
      (sanitiseMetricName s).data.getLast? ≠ some '_') ∧
    sanitiseMetricName "a1!@#b2" = "a1_b2" := by
  have hall : ∀ x ∈ (sanitiseMetricName s).data, goodChar x = true :=
    mem_sanitise_good s
  have hchain : List.Chain' (fun a b => ¬(a = '_' ∧ b = '_'))
      (sanitiseMetricName s).data :=
    chain'_stripTrailing _ _ (squash_chain' _)
  have hlast : (sanitiseMetricName s).data.getLast? ≠ some '_' :=
    stripTrailing_getLast? _
  refine ⟨?_, ⟨List.all_eq_true.mpr hall, hchain, hlast⟩, by decide⟩
  show (⟨stripTrailing (squash
    (((sanitiseMetricName s).data.map toLowerChar).map replaceBad))⟩ : String) =
    sanitiseMetricName s
  rw [map_fixed toLowerChar _ (fun x hx => toLowerChar_fixed x (hall x hx))]
  rw [map_fixed replaceBad _ (fun x hx => replaceBad_fixed x (hall x hx))]
  rw [squash_of_chain' _ hchain]
  rw [stripTrailing_of_getLast? _ (fun x hx heq => hlast (heq ▸ hx))]
